import Mathlib

/-!
Shallow embedding of the federated hybrid-search pipeline of the
`python-ml-service` repository, covering:

* `services/search.py` : `SearchService.search_all`,
  `SearchService.format_search_results` (excerpt construction, score
  fusion by a stable descending sort on `similarity_score`);
* `services/rerank.py` : `RerankService.load_model`,
  `RerankService.rerank_results`, `RerankService._compute_scores`;
* `services/database.py` : `DatabaseService.check_hybrid_search_available`
  (the cached availability gate);
* `endpoints/search.py` : the `search` endpoint (request validation,
  gate short-circuit, and the missing `await` on the `search_all` call
  at line 76, which makes every request that passes the gate fail with
  a TypeError before any formatting, truncation or reranking happens).

Modelling conventions: Python floats are modelled as rationals, Python
strings whose characters matter (content, excerpts, query text) as
`List Char`, table and type labels as `String`.  Dictionaries produced by
the formatter are modelled as structures whose optional keys are `Option`
fields; a missing key that the code would read raises, which is modelled
with `Except`.  External effects (the database query of one source, the
reranker model load, the score computation of the cross-encoder) are
oracles passed as parameters, so that one Lean function captures the
control flow of the Python code for every possible behaviour of the
environment.  Raising an exception is modelled as `Except.error`; the
columns of raw rows that only feed response metadata (channel ids,
timestamps, titles, ...) are omitted because no control flow reads them.
-/

/-- Python `l[:n]` slice count: non-negative `n` takes `n` elements,
negative `n` takes `len + n` (clamped at zero). -/
def pyCount (n : Int) (len : Nat) : Nat :=
  if 0 ≤ n then n.toNat else ((len : Int) + n).toNat

/-- Python `l[:n]`. -/
def pyTake (n : Int) (l : List α) : List α :=
  l.take (pyCount n l.length)

/-- One search configuration, `SearchConfig` of `endpoints/search.py`. -/
structure SourceConfig where
  table : String
  text_field : String
  vector_field : String
  filters : List (String × String)
deriving DecidableEq

/-- The body of `SearchRequest` of `endpoints/search.py`.  `limit` is a
plain `int` (the pydantic model places no bound on it), so it is an `Int`
here. -/
structure SearchRequest where
  query : List Char
  embedding : List ℚ
  search_configs : List SourceConfig
  limit : Int
  rerank : Bool
deriving DecidableEq

/-- A raw row as returned by `SearchService.search_table` and consumed by
`search_all` / `format_search_results`.  `similarity_score := none`
models a row dictionary lacking the `similarity_score` key. -/
structure RawRow where
  source_table : String := ""
  id : String := ""
  similarity_score : Option ℚ := none
  content : Option (List Char) := none
deriving DecidableEq

/-- A formatted result dictionary as produced by
`SearchService.format_search_results` and consumed by
`RerankService.rerank_results`.  `none` models an absent key (or a
`None` value where the code treats both alike). -/
structure FormattedItem where
  type : String
  score : ℚ
  content : Option (List Char) := none
  excerpt : Option (List Char) := none
  message_id : Option String := none
  rerank_score : Option ℚ := none
deriving DecidableEq

/-- Dummy item used for the (never reached) out-of-bounds case of the
index lookup `results[idx]` in `rerank_results`. -/
def dummyItem : FormattedItem :=
  { type := "", score := 0 }

/-- `excerpt = content[:200] + "..." if len(content) > 200 else content`
(`services/search.py`, message and knowledge-base branches). -/
def makeExcerpt (content : List Char) : List Char :=
  if 200 < content.length then content.take 200 ++ ['.', '.', '.'] else content

/-- One iteration of the loop of `format_search_results`: rows without a
`similarity_score` key are skipped, the three known `source_table`
values produce the corresponding dictionary, every other value falls
through the `if`/`elif` chain and is dropped. -/
def formatRow (r : RawRow) : Option FormattedItem :=
  match r.similarity_score with
  | none => none
  | some s =>
    if r.source_table = "golden_answers" then
      some { type := "golden_answer", score := s, content := r.content }
    else if r.source_table = "messages" then
      some { type := "message", score := s,
             excerpt := some (makeExcerpt (r.content.getD [])),
             message_id := some r.id }
    else if r.source_table = "knowledge_base_chunks" then
      some { type := "knowledge_base", score := s,
             excerpt := some (makeExcerpt (r.content.getD [])),
             content := r.content }
    else none

/-- `SearchService.format_search_results`. -/
def format_search_results (rows : List RawRow) : List FormattedItem :=
  rows.filterMap formatRow

/-- Sort key of the fusion sort:
`key=lambda x: x.get("similarity_score", 0)`. -/
def sortKey (r : RawRow) : ℚ :=
  r.similarity_score.getD 0

/-- The ordering used by `all_results.sort(..., reverse=True)`:
descending by `sortKey`; a stable sort with this relation keeps
equal-key elements in their original relative order, exactly as the
(stable) Python sort does. -/
def fuseLE (a b : RawRow) : Prop :=
  sortKey b ≤ sortKey a

instance : DecidableRel fuseLE := fun a b =>
  inferInstanceAs (Decidable (sortKey b ≤ sortKey a))

instance : IsTotal RawRow fuseLE :=
  ⟨fun a b => (le_total (sortKey b) (sortKey a)).imp id id⟩

instance : IsTrans RawRow fuseLE :=
  ⟨fun _ _ _ h1 h2 => le_trans h2 h1⟩

/-- The fusion step of `search_all`: the stable descending sort on
`similarity_score` (line 244 of `services/search.py`). -/
def fuseRows (rows : List RawRow) : List RawRow :=
  rows.insertionSort fuseLE

/-- `result["source_table"] = config["table"]` applied to the rows of one
source. -/
def tagRows (c : SourceConfig) (rows : List RawRow) : List RawRow :=
  rows.map (fun r => { r with source_table := c.table })

/-- The fan-out of `search_all`: every configuration runs its executor,
its rows are tagged with the table of the configuration, and (as with
`asyncio.gather` without `return_exceptions`) the first failure aborts
the whole gather, discarding the rows of the sibling sources. -/
def gatherSources (exec : SourceConfig → List ℚ → Int → Except String (List RawRow))
    (emb : List ℚ) (lim : Int) :
    List SourceConfig → Except String (List (List RawRow))
  | [] => .ok []
  | c :: cs =>
    match exec c emb lim with
    | .error e => .error e
    | .ok rs =>
      match gatherSources exec emb lim cs with
      | .error e => .error e
      | .ok rest => .ok (tagRows c rs :: rest)

/-- `SearchService.search_all`.  `exec` is the oracle for
`SearchService.search_table` (query construction plus
`db_service.execute_query`, which re-raises any failure).  On success
the per-source row lists are flattened and sorted by the stable
descending fusion sort. -/
def search_all (exec : SourceConfig → List ℚ → Int → Except String (List RawRow))
    (cs : List SourceConfig) (emb : List ℚ) (lim : Int) :
    Except String (List RawRow) :=
  (gatherSources exec emb lim cs).map (fun nested => fuseRows nested.flatten)

/-- State of `DatabaseService` relevant to the availability gate:
`self._is_hybrid_search_available`, `None` before the first probe. -/
structure DbState where
  is_hybrid_search_available : Option Bool
deriving DecidableEq

/-- `DatabaseService.check_hybrid_search_available`.  `probe` is the
oracle for the probing block (`True` when the vector-function query
succeeds, `False` when the block raises).  Returns the boolean together
with the updated service state. -/
def check_hybrid_search_available (probe : Bool) (st : DbState) :
    Bool × DbState :=
  match st.is_hybrid_search_available with
  | some v => (v, st)
  | none => (probe, { is_hybrid_search_available := some probe })

/-- State of `RerankService`: the `loaded` flag and whether
`self.model` is not `None`. -/
structure RerankState where
  loaded : Bool
  model : Bool
deriving DecidableEq

/-- `RerankService.load_model`.  `loadOutcome` is the oracle for the
`from_pretrained` call; on failure the code sets `model = None` and
`loaded = False`. -/
def load_model (loadOutcome : Bool) (st : RerankState) : RerankState :=
  if st.loaded then st
  else if loadOutcome then { loaded := true, model := true }
  else { loaded := false, model := false }

/-- The candidate text selected for one result inside `rerank_results`:
`result["content"]` when `result["type"] == "golden_answer"`, else
`result["excerpt"]`.  Reading an absent key raises (`Except.error`),
which the surrounding `try` of `rerank_results` catches. -/
def candidateText (r : FormattedItem) : Except Unit (List Char) :=
  if r.type = "golden_answer" then
    match r.content with
    | some c => .ok c
    | none => .error ()
  else
    match r.excerpt with
    | some e => .ok e
    | none => .error ()

/-- Effectful map over a list where the first failure aborts the whole
traversal, as a raised exception aborts a Python `for` loop. -/
def exceptMap (f : α → Except ε β) : List α → Except ε (List β)
  | [] => .ok []
  | x :: xs =>
    match f x with
    | .error e => .error e
    | .ok y =>
      match exceptMap f xs with
      | .error e => .error e
      | .ok ys => .ok (y :: ys)

/-- The `pairs` list built by `rerank_results` over `results[:20]`. -/
def mkQueryPairs (q : List Char) (l : List FormattedItem) :
    Except Unit (List (List Char × List Char)) :=
  exceptMap (fun r => (candidateText r).map (fun t => (q, t))) l

/-- Structural worker for `toBatches`; the fuel argument (the list
length at the first call) only makes the recursion structural. -/
def toBatchesAux : Nat → List (List Char × List Char) →
    List (List (List Char × List Char))
  | 0, _ => []
  | _, [] => []
  | fuel + 1, x :: xs => (x :: xs.take 7) :: toBatchesAux fuel (xs.drop 7)

/-- The fixed-size batching (`batch_size = 8`,
`for i in range(0, len(pairs), batch_size)`) of `_compute_scores`. -/
def toBatches (l : List (List Char × List Char)) :
    List (List (List Char × List Char)) :=
  toBatchesAux l.length l

/-- `RerankService._compute_scores`.  `co` is the oracle for
`model.compute_score` on one batch (`Except.error` = the call raises).
A failure in any batch unwinds into the `except` clause, which replaces
everything with `[0.5] * len(pairs)`; the `hasattr` fallback produces
the same constant list. -/
def computeScores (co : List (List Char × List Char) → Except Unit (List ℚ))
    (pairs : List (List Char × List Char)) : List ℚ :=
  match exceptMap co (toBatches pairs) with
  | .ok scoreLists => scoreLists.flatten
  | .error _ => List.replicate pairs.length (mkRat 1 2)

/-- Descending order on `(index, score)` used by
`scored_results.sort(key=lambda x: x[1], reverse=True)`; stable sorting
with this relation keeps equal scores in index order, as Python does. -/
def scoreDesc (a b : Nat × ℚ) : Prop :=
  b.2 ≤ a.2

instance : DecidableRel scoreDesc := fun a b =>
  inferInstanceAs (Decidable (b.2 ≤ a.2))

instance : IsTotal (Nat × ℚ) scoreDesc :=
  ⟨fun a b => (le_total b.2 a.2).imp id id⟩

instance : IsTrans (Nat × ℚ) scoreDesc :=
  ⟨fun _ _ _ h1 h2 => le_trans h2 h1⟩

/-- `result = results[idx].copy(); result["rerank_score"] = float(score)`:
a fresh dictionary, the input dictionary is left untouched. -/
def setRerankScore (r : FormattedItem) (s : ℚ) : FormattedItem :=
  { r with rerank_score := some s }

/-- The value returned by one call to `rerank_results`, together with the
service state it leaves behind and whether the call invoked
`load_model` (the `if not self.loaded: self.load_model()` guard). -/
structure RerankCall where
  output : List FormattedItem
  state : RerankState
  attemptedLoad : Bool
deriving DecidableEq

/-- `RerankService.rerank_results`.  `loadOutcome` and `co` are the
oracles for the model load and the per-batch score computation.  The
outer `try`/`except` makes every failure after the small-set guards
fall back to `results[:top_k]`; `_compute_scores` never raises, so the
only exception source after a successful load is the pair-building key
access. -/
def rerank_results (loadOutcome : Bool)
    (co : List (List Char × List Char) → Except Unit (List ℚ))
    (query : List Char) (results : List FormattedItem) (top_k : Int)
    (st : RerankState) : RerankCall :=
  if results.isEmpty then ⟨[], st, false⟩
  else if results.length ≤ 1 then ⟨results, st, false⟩
  else if results.length ≤ 3 then ⟨pyTake top_k results, st, false⟩
  else
    let attempted := !st.loaded
    let st' := if st.loaded then st else load_model loadOutcome st
    if st'.model = false then ⟨pyTake top_k results, st', attempted⟩
    else
      match mkQueryPairs query (results.take 20) with
      | .error _ => ⟨pyTake top_k results, st', attempted⟩
      | .ok pairs =>
        let scores := computeScores co pairs
        let scored := (List.range pairs.length).zip scores
        let sortedScored := scored.insertionSort scoreDesc
        let reranked := (pyTake top_k sortedScored).map
          (fun p => setRerankScore (results.getD p.1 dummyItem) p.2)
        ⟨reranked, st', attempted⟩

/-- Outcome of one request to the `search` endpoint.  `badRequest` is an
`HTTPException` with status 400, `unavailable` the distinct 503,
`serverError` an unhandled exception escaping the handler, which
FastAPI surfaces as a 500.  `ok` is the shape a 200 response would
have; the code as written never produces one (see `searchEndpoint`). -/
inductive SearchOutcome
  | badRequest (detail : String)
  | unavailable
  | serverError (e : String)
  | ok (results : List FormattedItem)
deriving DecidableEq

/-- The `search` endpoint of `endpoints/search.py`: the three
validations and the availability gate.  After the gate, line 76 calls
the `async def search_all` WITHOUT `await` (contrast line 87, which
does await `rerank_results`), so `raw_results` is a coroutine object
whose body — the whole fan-out — never runs: no source executor is
invoked.  `format_search_results` then iterates that coroutine and
raises `TypeError` (coroutine object is not iterable), an unhandled
exception answered as a 500.  Everything from line 83 on (formatting,
reranking, truncation, the 200 response) is unreachable, so the model
ends the gate-passing path in that server error.  `request.query` is
falsy or blank after `strip()` exactly when every character is
whitespace. -/
def searchEndpoint (probe : Bool)
    (_exec : SourceConfig → List ℚ → Int → Except String (List RawRow))
    (_loadOutcome : Bool)
    (_co : List (List Char × List Char) → Except Unit (List ℚ))
    (dbSt : DbState) (rkSt : RerankState) (req : SearchRequest) :
    SearchOutcome × DbState × RerankState :=
  if req.query.all Char.isWhitespace then
    (.badRequest "Query cannot be empty", dbSt, rkSt)
  else if req.embedding.isEmpty then
    (.badRequest "Embedding cannot be empty", dbSt, rkSt)
  else if req.search_configs.isEmpty then
    (.badRequest "At least one search config required", dbSt, rkSt)
  else
    let g := check_hybrid_search_available probe dbSt
    if g.1 = false then (.unavailable, g.2, rkSt)
    else
      (.serverError "TypeError: coroutine object is not iterable", g.2, rkSt)

/-- Candidate-text selection as the spec words it (section 4.6 step 4):
`candidate_text` is `content` if present else `excerpt`.  Stated
separately so it can be compared with `candidateText`, the selection
the code performs. -/
def specCandidateText (r : FormattedItem) : List Char :=
  match r.content with
  | some c => c
  | none => r.excerpt.getD []

/-- Tagged rows of one source in the all-success case of the fan-out. -/
def taggedRows (exec : SourceConfig → List ℚ → Int → Except String (List RawRow))
    (emb : List ℚ) (lim : Int) (c : SourceConfig) : List RawRow :=
  match exec c emb lim with
  | .ok rs => tagRows c rs
  | .error _ => []

/-! Concrete fixtures used by witnesses and counterexamples. -/

/-- A formatted message result. -/
def msgItem (s : ℚ) (e : List Char) (id : String) : FormattedItem :=
  { type := "message", score := s, excerpt := some e, message_id := some id }

/-- Four formatted results in fused (descending) order. -/
def items4 : List FormattedItem :=
  [ msgItem (mkRat 9 10) "aaa".data "m1",
    msgItem (mkRat 8 10) "bbb".data "m2",
    { type := "golden_answer", score := mkRat 7 10, content := some "ccc".data },
    msgItem (mkRat 6 10) "ddd".data "m4" ]

/-- A score oracle whose batch computation always raises. -/
def coFail : List (List Char × List Char) → Except Unit (List ℚ) :=
  fun _ => .error ()

/-- A score oracle that succeeds with a constant score per pair. -/
def coFixed : List (List Char × List Char) → Except Unit (List ℚ) :=
  fun ps => .ok (List.replicate ps.length (mkRat 3 4))

/-- A 201-character content, one character past the excerpt limit. -/
def longContent : List Char :=
  List.replicate 201 'a'

/-- A knowledge-base chunk row with over-limit content. -/
def kbRowLong : RawRow :=
  { source_table := "knowledge_base_chunks", id := "k1",
    similarity_score := some (mkRat 9 10), content := some longContent }

/-- The formatted result of `kbRowLong`: full content plus truncated
excerpt. -/
def kbItemLong : FormattedItem :=
  { type := "knowledge_base", score := mkRat 9 10,
    excerpt := some (makeExcerpt longContent), content := some longContent }

/-- Four formatted results led by a knowledge-base chunk carrying full
content. -/
def itemsKb : List FormattedItem :=
  [ kbItemLong,
    msgItem (mkRat 8 10) "bbb".data "m2",
    msgItem (mkRat 7 10) "ccc".data "m3",
    msgItem (mkRat 6 10) "ddd".data "m4" ]

/-- A message-table search configuration. -/
def cfgM : SourceConfig :=
  ⟨"messages", "content", "embedding", []⟩

/-- A golden-answer search configuration. -/
def cfgG : SourceConfig :=
  ⟨"golden_answers", "answer", "embedding", []⟩

/-- An executor oracle where the message source succeeds and every other
source fails. -/
def execOneFail : SourceConfig → List ℚ → Int → Except String (List RawRow) :=
  fun c _ _ =>
    if c.table = "messages" then
      .ok [{ id := "m1", similarity_score := some (mkRat 9 10), content := some "hi".data }]
    else .error "boom"

/-- An executor oracle returning two message rows in ascending score
order (so that fusion has something to reorder). -/
def execTwoRows : SourceConfig → List ℚ → Int → Except String (List RawRow) :=
  fun _ _ _ =>
    .ok [{ id := "m1", similarity_score := some (mkRat 1 2), content := some "x".data },
         { id := "m2", similarity_score := some (mkRat 9 10), content := some "y".data }]

/-- An executor oracle returning no rows. -/
def execEmpty : SourceConfig → List ℚ → Int → Except String (List RawRow) :=
  fun _ _ _ => .ok []

/-- A well-formed request with `limit = 0` (not rejected by the code). -/
def reqLimit0 : SearchRequest :=
  ⟨"hi".data, [1], [cfgM], 0, true⟩

/-- A well-formed request with `rerank = false`. -/
def reqNoRerank : SearchRequest :=
  ⟨"hi".data, [1], [cfgM], 10, false⟩

/-- Requests used by the C9 theorems: blank query, empty embedding,
empty source list. -/
def reqBlank : SearchRequest :=
  ⟨" ".data, [1], [cfgM], 5, true⟩

/-- A request with an empty embedding. -/
def reqNoEmb : SearchRequest :=
  ⟨"hi".data, [], [cfgM], 5, true⟩

/-- A request with no search configuration. -/
def reqNoCfg : SearchRequest :=
  ⟨"hi".data, [1], [], 5, true⟩

/-- The `search_all` result for `execTwoRows` on one message source:
the two rows tagged and in fused descending order. -/
def fusedTwoRows : List RawRow :=
  [ { source_table := "messages", id := "m2",
      similarity_score := some (mkRat 9 10), content := some "y".data },
    { source_table := "messages", id := "m1",
      similarity_score := some (mkRat 1 2), content := some "x".data } ]

/-! Helper lemmas. -/

theorem exceptMap_ok_length {f : α → Except ε β} :
    ∀ {l : List α} {l' : List β}, exceptMap f l = .ok l' → l'.length = l.length := by
  intro l
  induction l with
  | nil => intro l' h; simp [exceptMap] at h; simp [← h]
  | cons x xs ih =>
    intro l' h
    simp only [exceptMap] at h
    cases hx : f x with
    | error e => rw [hx] at h; exact absurd h (by simp)
    | ok y =>
      rw [hx] at h
      cases hxs : exceptMap f xs with
      | error e => rw [hxs] at h; exact absurd h (by simp)
      | ok ys =>
        rw [hxs] at h
        cases h
        simp [ih hxs]

theorem pyTake_map (f : α → β) (n : Int) (l : List α) :
    pyTake n (l.map f) = (pyTake n l).map f := by
  simp [pyTake, pyCount, List.map_take]

theorem mem_pyTake {a : α} {n : Int} {l : List α} (h : a ∈ pyTake n l) : a ∈ l :=
  List.take_subset _ _ h

theorem pyTake_all_of_le {n : Int} {l : List α} (h : (l.length : Int) ≤ n) :
    pyTake n l = l := by
  have h0 : 0 ≤ n := le_trans (by positivity) h
  have : l.length ≤ n.toNat := by omega
  simp [pyTake, pyCount, h0, List.take_of_length_le this]

theorem formatRow_score {r : RawRow} {it : FormattedItem}
    (h : formatRow r = some it) : it.score = sortKey r := by
  cases hs : r.similarity_score with
  | none => simp [formatRow, hs] at h
  | some s =>
    simp only [formatRow, hs] at h
    simp only [sortKey, hs, Option.getD_some]
    split_ifs at h
    · have h' := Option.some_inj.mp h
      subst h'
      rfl
    · have h' := Option.some_inj.mp h
      subst h'
      rfl
    · have h' := Option.some_inj.mp h
      subst h'
      rfl

theorem load_model_of_loaded {loadOutcome : Bool} {st : RerankState}
    (h : st.loaded = true) : load_model loadOutcome st = st := by
  simp [load_model, h]

theorem if_loaded_load_model (loadOutcome : Bool) (st : RerankState) :
    (if st.loaded then st else load_model loadOutcome st) = load_model loadOutcome st := by
  by_cases h : st.loaded
  · simp [h, load_model_of_loaded h]
  · simp [h]

theorem zip_replicate_eq_map (a : β) :
    ∀ (l : List α), l.zip (List.replicate l.length a) = l.map (fun x => (x, a)) := by
  intro l
  induction l with
  | nil => rfl
  | cons x xs ih => simp [List.replicate_succ, ih]

theorem orderedInsert_const_score {c : ℚ} :
    ∀ {l : List (Nat × ℚ)} {x : Nat × ℚ}, x.2 = c → (∀ p ∈ l, p.2 = c) →
      l.orderedInsert scoreDesc x = x :: l := by
  intro l x hx hl
  cases l with
  | nil => rfl
  | cons y ys =>
    have hy : y.2 = c := hl y (by simp)
    have : scoreDesc x y := by simp [scoreDesc, hx, hy]
    simp [List.orderedInsert, if_pos this]

theorem insertionSort_const_score (c : ℚ) :
    ∀ {l : List (Nat × ℚ)}, (∀ p ∈ l, p.2 = c) → l.insertionSort scoreDesc = l := by
  intro l
  induction l with
  | nil => intro _; rfl
  | cons x xs ih =>
    intro h
    have hxs : ∀ p ∈ xs, p.2 = c := fun p hp => h p (by simp [hp])
    rw [List.insertionSort, ih hxs,
      orderedInsert_const_score (h x (by simp)) hxs]

theorem map_getD_range {l : List α} (d : α) :
    ∀ {m : Nat}, m ≤ l.length →
      (List.range m).map (fun i => l.getD i d) = l.take m := by
  intro m
  induction m with
  | zero => intro _; rfl
  | succ k ih =>
    intro h
    have hk : k < l.length := by omega
    rw [List.range_succ, List.map_append, ih (by omega), List.take_succ]
    simp [List.getD_eq_getElem l d hk, List.getElem?_eq_getElem hk]

theorem gather_all_ok {exec : SourceConfig → List ℚ → Int → Except String (List RawRow)}
    {emb : List ℚ} {lim : Int} :
    ∀ {cs : List SourceConfig}, (∀ c ∈ cs, ∃ rs, exec c emb lim = .ok rs) →
      gatherSources exec emb lim cs = .ok (cs.map (taggedRows exec emb lim)) := by
  intro cs
  induction cs with
  | nil => intro _; rfl
  | cons c cs' ih =>
    intro h
    obtain ⟨rs, hrs⟩ := h c (by simp)
    have hrest := ih (fun c' hc' => h c' (by simp [hc']))
    simp [gatherSources, hrs, hrest, taggedRows]

theorem gather_first_error {exec : SourceConfig → List ℚ → Int → Except String (List RawRow)}
    {emb : List ℚ} {lim : Int} :
    ∀ {cs : List SourceConfig}, (∃ c ∈ cs, ∃ e, exec c emb lim = .error e) →
      ∃ e, gatherSources exec emb lim cs = .error e ∧
        ∃ c ∈ cs, exec c emb lim = .error e := by
  intro cs
  induction cs with
  | nil => rintro ⟨c, hc, _⟩; exact absurd hc (by simp)
  | cons c cs' ih =>
    rintro ⟨c0, hc0, e0, he0⟩
    cases hc : exec c emb lim with
    | error e =>
      exact ⟨e, by simp [gatherSources, hc], c, by simp, hc⟩
    | ok rs =>
      have hc0' : c0 ∈ cs' := by
        rcases List.mem_cons.mp hc0 with h | h
        · subst h; rw [hc] at he0; exact absurd he0 (by simp)
        · exact h
      obtain ⟨e, hg, c1, hc1, he1⟩ := ih ⟨c0, hc0', e0, he0⟩
      exact ⟨e, by simp [gatherSources, hc, hg], c1, by simp [hc1], he1⟩

/-- Characterization of `rerank_results` on more than three results: the
small-set guards are skipped, a load is attempted when needed, and the
call either falls back to `results[:top_k]` (no model, or pair building
raised) or returns the rescored copies. -/
theorem rerank_results_big (loadOutcome : Bool)
    (co : List (List Char × List Char) → Except Unit (List ℚ))
    (query : List Char) (results : List FormattedItem) (top_k : Int)
    (st : RerankState) (h3 : 3 < results.length) :
    rerank_results loadOutcome co query results top_k st =
      if (load_model loadOutcome st).model = false then
        ⟨pyTake top_k results, load_model loadOutcome st, !st.loaded⟩
      else
        match mkQueryPairs query (results.take 20) with
        | .error _ => ⟨pyTake top_k results, load_model loadOutcome st, !st.loaded⟩
        | .ok pairs =>
          ⟨(pyTake top_k
              (((List.range pairs.length).zip (computeScores co pairs)).insertionSort scoreDesc)).map
                (fun p => setRerankScore (results.getD p.1 dummyItem) p.2),
            load_model loadOutcome st, !st.loaded⟩ := by
  have hne : results ≠ [] := by
    intro h
    rw [h] at h3
    simp at h3
  unfold rerank_results
  rw [if_neg (by simpa [List.isEmpty_iff] using hne),
    if_neg (by omega), if_neg (by omega), if_loaded_load_model]

/-- On at most three results `rerank_results` leaves the service state
alone and never attempts a model load. -/
theorem rerank_small_state (loadOutcome : Bool)
    (co : List (List Char × List Char) → Except Unit (List ℚ))
    (query : List Char) (results : List FormattedItem) (top_k : Int)
    (st : RerankState) (h3 : results.length ≤ 3) :
    (rerank_results loadOutcome co query results top_k st).state = st
    ∧ (rerank_results loadOutcome co query results top_k st).attemptedLoad = false := by
  unfold rerank_results
  split_ifs with he h1
  · exact ⟨rfl, rfl⟩
  · exact ⟨rfl, rfl⟩
  · exact ⟨rfl, rfl⟩

/-- On more than three results the state becomes the load result and a
load is attempted exactly when the service is not yet loaded. -/
theorem rerank_big_state (loadOutcome : Bool)
    (co : List (List Char × List Char) → Except Unit (List ℚ))
    (query : List Char) (results : List FormattedItem) (top_k : Int)
    (st : RerankState) (h3 : 3 < results.length) :
    (rerank_results loadOutcome co query results top_k st).state = load_model loadOutcome st
    ∧ (rerank_results loadOutcome co query results top_k st).attemptedLoad = !st.loaded := by
  rw [rerank_results_big loadOutcome co query results top_k st h3]
  constructor <;>
    · split
      · rfl
      · split <;> rfl

/-- C5 — Excerpt truncation law: content longer than 200 characters
yields exactly its first 200 characters followed by the ellipsis marker
(and that prefix has length exactly 200); content of at most 200
characters is returned verbatim with no marker; the formatter passes the
`content` field through untruncated for the sources that carry full
content (golden answers and knowledge-base chunks), while messages and
knowledge-base chunks receive the excerpt. -/
theorem excerpt_truncation_law (r : RawRow) (s : ℚ) (content : List Char) :
    (200 < content.length →
      makeExcerpt content = content.take 200 ++ ['.', '.', '.'] ∧
      (content.take 200).length = 200)
  ∧ (content.length ≤ 200 → makeExcerpt content = content)
  ∧ (r.similarity_score = some s → r.source_table = "messages" →
      formatRow r = some { type := "message", score := s,
                           excerpt := some (makeExcerpt (r.content.getD [])),
                           message_id := some r.id })
  ∧ (r.similarity_score = some s → r.source_table = "knowledge_base_chunks" →
      formatRow r = some { type := "knowledge_base", score := s,
                           excerpt := some (makeExcerpt (r.content.getD [])),
                           content := r.content })
  ∧ (r.similarity_score = some s → r.source_table = "golden_answers" →
      formatRow r = some { type := "golden_answer", score := s, content := r.content }) := by
  refine ⟨?_, ?_, ?_, ?_, ?_⟩
  · intro h
    refine ⟨by simp [makeExcerpt, h], ?_⟩
    rw [List.length_take]
    omega
  · intro h
    simp [makeExcerpt, Nat.not_lt.mpr h]
  · intro hs ht
    simp [formatRow, hs, ht]
  · intro hs ht
    simp [formatRow, hs, ht]
  · intro hs ht
    simp [formatRow, hs, ht]

/-- Witness for C5 at a 201-character knowledge-base row. -/
theorem excerpt_truncation_law_witness :
    (makeExcerpt longContent = longContent.take 200 ++ ['.', '.', '.'] ∧
      (longContent.take 200).length = 200)
  ∧ formatRow kbRowLong = some { type := "knowledge_base", score := mkRat 9 10,
                                 excerpt := some (makeExcerpt longContent),
                                 content := some longContent } := by
  have h := excerpt_truncation_law kbRowLong (mkRat 9 10) longContent
  exact ⟨h.1 (by norm_num [longContent]), h.2.2.2.1 rfl rfl⟩

/-- C6 — Small-set rerank no-op: on 0, 1, 2 or 3 results and positive
`top_k`, `rerank_results` returns exactly the fused input truncated to
`top_k`, unchanged in order and content, touches no service state,
attempts no model load, and populates `rerank_score` on no item. -/
theorem small_set_rerank_noop (loadOutcome : Bool)
    (co : List (List Char × List Char) → Except Unit (List ℚ))
    (query : List Char) (results : List FormattedItem) (top_k : Int)
    (st : RerankState) (h3 : results.length ≤ 3) (htk : 0 < top_k)
    (hnone : ∀ r ∈ results, r.rerank_score = none) :
    (rerank_results loadOutcome co query results top_k st).output = pyTake top_k results
  ∧ (rerank_results loadOutcome co query results top_k st).state = st
  ∧ (rerank_results loadOutcome co query results top_k st).attemptedLoad = false
  ∧ ∀ o ∈ (rerank_results loadOutcome co query results top_k st).output,
      o.rerank_score = none := by
  have key : rerank_results loadOutcome co query results top_k st =
      ⟨pyTake top_k results, st, false⟩ := by
    unfold rerank_results
    split_ifs with he h1
    · have h0 : results = [] := List.isEmpty_iff.mp he
      subst h0
      simp [pyTake]
    · have hlen : (results.length : Int) ≤ top_k := by omega
      rw [pyTake_all_of_le hlen]
    · rfl
  rw [key]
  refine ⟨rfl, rfl, rfl, fun o ho => hnone o (mem_pyTake ho)⟩

/-- Witness for C6: two results, `top_k = 1`. -/
theorem small_set_rerank_noop_witness :
    (rerank_results true coFixed "q".data (items4.take 2) 1 ⟨false, false⟩).output
        = pyTake 1 (items4.take 2)
  ∧ (rerank_results true coFixed "q".data (items4.take 2) 1 ⟨false, false⟩).state
        = ⟨false, false⟩
  ∧ (rerank_results true coFixed "q".data (items4.take 2) 1 ⟨false, false⟩).attemptedLoad
        = false
  ∧ ∀ o ∈ (rerank_results true coFixed "q".data (items4.take 2) 1 ⟨false, false⟩).output,
      o.rerank_score = none :=
  small_set_rerank_noop true coFixed "q".data (items4.take 2) 1 ⟨false, false⟩
    (by decide) (by decide) (by decide)

/-- C7 counterexample — a failed model load is not cached: the first
call on more than three results attempts the load and leaves the
service unloaded, and the next call attempts the load again, refuting
"no subsequent rerank_results call attempts to load the model again". -/
theorem failed_load_retried_cex :
    (rerank_results false coFixed "q".data items4 20 ⟨false, false⟩).attemptedLoad = true
  ∧ (rerank_results false coFixed "q".data items4 20 ⟨false, false⟩).state = ⟨false, false⟩
  ∧ (rerank_results false coFixed "q".data items4 20
      (rerank_results false coFixed "q".data items4 20 ⟨false, false⟩).state).attemptedLoad
        = true := by
  decide

/-- C7 (amended) — only a successful load outcome is cached: once
`loaded` is set, later calls attempt no load and leave the state
untouched; while the service is unloaded, every call on more than three
results attempts the load, and a failed attempt leaves the service
unloaded, so the next such call attempts it again. -/
theorem rerank_load_outcome_caching (loadOutcome : Bool)
    (co : List (List Char × List Char) → Except Unit (List ℚ))
    (query : List Char) (results : List FormattedItem) (top_k : Int)
    (st : RerankState) :
    (st.loaded = true →
      (rerank_results loadOutcome co query results top_k st).attemptedLoad = false
      ∧ (rerank_results loadOutcome co query results top_k st).state = st)
  ∧ (st.loaded = false → 3 < results.length →
      (rerank_results loadOutcome co query results top_k st).attemptedLoad = true)
  ∧ (st.loaded = false → loadOutcome = false → 3 < results.length →
      (rerank_results loadOutcome co query results top_k st).state = ⟨false, false⟩) := by
  refine ⟨?_, ?_, ?_⟩
  · intro hl
    by_cases h3 : results.length ≤ 3
    · have h := rerank_small_state loadOutcome co query results top_k st h3
      exact ⟨h.2, h.1⟩
    · have h := rerank_big_state loadOutcome co query results top_k st (by omega)
      refine ⟨by rw [h.2, hl]; rfl, by rw [h.1, load_model_of_loaded hl]⟩
  · intro hl h3
    have h := rerank_big_state loadOutcome co query results top_k st h3
    rw [h.2, hl]
    rfl
  · intro hl ho h3
    have h := rerank_big_state loadOutcome co query results top_k st h3
    rw [h.1, load_model, hl, ho]
    simp

/-- Witness for the amended C7. -/
theorem rerank_load_outcome_caching_witness :
    ((rerank_results true coFixed "q".data items4 20 ⟨true, true⟩).attemptedLoad = false
      ∧ (rerank_results true coFixed "q".data items4 20 ⟨true, true⟩).state = ⟨true, true⟩)
  ∧ (rerank_results false coFixed "q".data items4 20 ⟨false, false⟩).attemptedLoad = true
  ∧ (rerank_results false coFixed "q".data items4 20 ⟨false, false⟩).state = ⟨false, false⟩ :=
  ⟨(rerank_load_outcome_caching true coFixed "q".data items4 20 ⟨true, true⟩).1 rfl,
    (rerank_load_outcome_caching false coFixed "q".data items4 20 ⟨false, false⟩).2.1
      rfl (by decide),
    (rerank_load_outcome_caching false coFixed "q".data items4 20 ⟨false, false⟩).2.2
      rfl rfl (by decide)⟩

/-- Erasing an absent `rerank_score` is the identity. -/
theorem set_none_eq_self {x : FormattedItem} (h : x.rerank_score = none) :
    { x with rerank_score := none } = x := by
  cases x
  simp_all

/-- C10 — `rerank_results` never mutates its input: in the functional
model the list held by the caller is a value the call cannot change, and the code
path mirrors this by copying (`results[idx].copy()`) before attaching
`rerank_score`.  Consequently, when the inputs carry no `rerank_score`,
every output item either is one of the input items unchanged (fallback
paths) or becomes one of the input items after erasing the
`rerank_score` the copy received — no `rerank_score` is ever attached
to an input item itself. -/
theorem rerank_no_input_mutation (loadOutcome : Bool)
    (co : List (List Char × List Char) → Except Unit (List ℚ))
    (query : List Char) (results : List FormattedItem) (top_k : Int)
    (st : RerankState)
    (hnone : ∀ r ∈ results, r.rerank_score = none) :
    ∀ o ∈ (rerank_results loadOutcome co query results top_k st).output,
      (o.rerank_score = none → o ∈ results) ∧
      (∀ s, o.rerank_score = some s → { o with rerank_score := none } ∈ results) := by
  intro o ho
  by_cases h3 : results.length ≤ 3
  · have hout : o ∈ results := by
      revert ho
      unfold rerank_results
      split_ifs with he h1
      · intro ho
        exact absurd ho (by simp)
      · intro ho
        exact ho
      · intro ho
        exact mem_pyTake ho
    refine ⟨fun _ => hout, fun s hs => ?_⟩
    rw [hnone o hout] at hs
    exact absurd hs (by simp)
  · rw [rerank_results_big loadOutcome co query results top_k st (by omega)] at ho
    by_cases hm : (load_model loadOutcome st).model = false
    · rw [if_pos hm] at ho
      have hout : o ∈ results := mem_pyTake ho
      refine ⟨fun _ => hout, fun s hs => ?_⟩
      rw [hnone o hout] at hs
      exact absurd hs (by simp)
    · rw [if_neg hm] at ho
      cases hq : mkQueryPairs query (results.take 20) with
      | error e =>
        rw [hq] at ho
        have hout : o ∈ results := mem_pyTake ho
        refine ⟨fun _ => hout, fun s hs => ?_⟩
        rw [hnone o hout] at hs
        exact absurd hs (by simp)
      | ok pairs =>
        rw [hq] at ho
        obtain ⟨⟨i, sc⟩, hp, rfl⟩ := List.mem_map.mp ho
        have hp1 : (i, sc) ∈ (List.range pairs.length).zip (computeScores co pairs) :=
          (List.mem_insertionSort scoreDesc).mp (mem_pyTake hp)
        have hi : i < pairs.length := List.mem_range.mp (List.of_mem_zip hp1).1
        have hplen : pairs.length = (results.take 20).length := exceptMap_ok_length hq
        have hilen : i < results.length := by
          rw [hplen, List.length_take] at hi
          omega
        rw [List.getD_eq_getElem results dummyItem hilen]
        have hmem : results[i] ∈ results := List.getElem_mem hilen
        constructor
        · intro hcontra
          simp [setRerankScore] at hcontra
        · intro s hs
          have hset : ({ setRerankScore results[i] sc with rerank_score := none } : FormattedItem)
              = results[i] := set_none_eq_self (hnone _ hmem)
          rw [hset]
          exact hmem

/-- C2 counterexample — a failure inside the score computation does not
reproduce the pure fallback: `_compute_scores` swallows the exception
and returns `[0.5] * len(pairs)`, so `rerank_results` still takes the
rescoring path and populates `rerank_score = 0.5` on every returned
item (the fused order is preserved only because the sort is stable),
refuting "no rerank_score field populated on any returned item". -/
theorem rerank_scoring_failure_cex :
    (rerank_results true coFail "q".data items4 20 ⟨false, false⟩).output.map
        (fun o => o.rerank_score) = List.replicate 4 (some (mkRat 1 2))
  ∧ (rerank_results true coFail "q".data items4 20 ⟨false, false⟩).output.map
        (fun o => o.score) = [mkRat 9 10, mkRat 8 10, mkRat 7 10, mkRat 6 10] :=
  ⟨rfl, rfl⟩

/-- C2 (amended) — rerank failure fallback, as the code behaves: a model
load failure makes `rerank_results` return the fused input truncated to
`top_k` with no item modified (so no `rerank_score` appears); a failure
while scoring is absorbed by `_compute_scores` into the constant score
`0.5` per pair, so the call returns the first `min(top_k, 20)` items of
the fused order, each a copy carrying `rerank_score = 0.5`.  In both
situations no error reaches the caller (the function is total). -/
theorem rerank_failure_fallback (loadOutcome : Bool)
    (co : List (List Char × List Char) → Except Unit (List ℚ))
    (query : List Char) (results : List FormattedItem) (top_k : Int)
    (st : RerankState) :
    (st.loaded = false → loadOutcome = false → 3 < results.length →
      (rerank_results loadOutcome co query results top_k st).output = pyTake top_k results)
  ∧ (∀ pairs, (load_model loadOutcome st).model = true → 3 < results.length →
      mkQueryPairs query (results.take 20) = .ok pairs →
      exceptMap co (toBatches pairs) = .error () →
      (rerank_results loadOutcome co query results top_k st).output =
        (pyTake top_k (results.take 20)).map (fun r => setRerankScore r (mkRat 1 2))) := by
  constructor
  · intro hl ho h3
    have hlm : load_model loadOutcome st = ⟨false, false⟩ := by
      simp [load_model, hl, ho]
    rw [rerank_results_big loadOutcome co query results top_k st h3, hlm]
    rfl
  · intro pairs hm h3 hq herr
    have hkey : rerank_results loadOutcome co query results top_k st =
        ⟨(pyTake top_k
            (((List.range pairs.length).zip (computeScores co pairs)).insertionSort scoreDesc)).map
              (fun p => setRerankScore (results.getD p.1 dummyItem) p.2),
          load_model loadOutcome st, !st.loaded⟩ := by
      rw [rerank_results_big loadOutcome co query results top_k st h3,
        if_neg (by simp [hm]), hq]
    rw [hkey]
    dsimp only
    have hscores : computeScores co pairs = List.replicate pairs.length (mkRat 1 2) := by
      unfold computeScores
      rw [herr]
    have hn : pairs.length = (results.take 20).length := exceptMap_ok_length hq
    have hzip : (List.range pairs.length).zip (List.replicate pairs.length (mkRat 1 2))
        = (List.range pairs.length).map (fun i => (i, mkRat 1 2)) := by
      have h0 := zip_replicate_eq_map (mkRat 1 2) (List.range pairs.length)
      rwa [List.length_range] at h0
    have hsort : ((List.range pairs.length).map (fun i => (i, mkRat 1 2))).insertionSort scoreDesc
        = (List.range pairs.length).map (fun i => (i, mkRat 1 2)) := by
      refine insertionSort_const_score (mkRat 1 2) ?_
      intro p hp
      obtain ⟨i, _, rfl⟩ := List.mem_map.mp hp
      rfl
    rw [hscores, hzip, hsort, pyTake_map, List.map_map]
    have hpt : pyTake top_k (List.range pairs.length)
        = List.range (min (pyCount top_k pairs.length) pairs.length) := by
      rw [pyTake, List.length_range, List.take_range]
    rw [hpt]
    have h20 : pairs.length ≤ results.length := by
      rw [hn, List.length_take]
      omega
    have hm2 : min (pyCount top_k pairs.length) pairs.length ≤ results.length := by
      omega
    have hcomp : ((fun p : Nat × ℚ => setRerankScore (results.getD p.1 dummyItem) p.2) ∘
          fun i => (i, mkRat 1 2))
        = (fun r => setRerankScore r (mkRat 1 2)) ∘ (fun i => results.getD i dummyItem) := by
      funext i
      rfl
    rw [hcomp, ← List.map_map, map_getD_range dummyItem hm2]
    congr 1
    rw [pyTake, ← hn, List.take_take, List.take_eq_take]
    have hminlen : pairs.length = min 20 results.length := by
      rw [hn, List.length_take]
    omega

/-- Witness for the amended C2: a failed load falls back unchanged; a
scoring failure returns the fused order with constant score 0.5. -/
theorem rerank_failure_fallback_witness :
    (rerank_results false coFixed "q".data items4 20 ⟨false, false⟩).output
        = pyTake 20 items4
  ∧ (rerank_results true coFail "q".data items4 20 ⟨true, true⟩).output
        = (pyTake 20 (items4.take 20)).map (fun r => setRerankScore r (mkRat 1 2)) :=
  ⟨(rerank_failure_fallback false coFixed "q".data items4 20 ⟨false, false⟩).1
      rfl rfl (by decide),
    (rerank_failure_fallback true coFail "q".data items4 20 ⟨true, true⟩).2
      [("q".data, "aaa".data), ("q".data, "bbb".data),
       ("q".data, "ccc".data), ("q".data, "ddd".data)]
      rfl (by decide) rfl rfl⟩

/-- C8 counterexample — the candidate text sent to the reranker for a
knowledge-base chunk is its (truncated) excerpt, not its full content,
even though the content is present; the spec-side selector
`specCandidateText` would have chosen the content. -/
theorem rerank_pair_selection_cex :
    mkQueryPairs "q".data (itemsKb.take 20) =
      .ok [("q".data, makeExcerpt longContent), ("q".data, "bbb".data),
           ("q".data, "ccc".data), ("q".data, "ddd".data)]
  ∧ kbItemLong.content = some longContent
  ∧ makeExcerpt longContent ≠ longContent
  ∧ specCandidateText kbItemLong = longContent := by
  refine ⟨rfl, rfl, ?_, rfl⟩
  intro h
  have hlen := congrArg List.length h
  have h201 : longContent.length = 201 := by
    unfold longContent
    rw [List.length_replicate]
  rw [makeExcerpt, if_pos (by rw [h201]; norm_num)] at hlen
  rw [List.length_append, List.length_take, h201] at hlen
  simp at hlen

/-- C8 (amended) — candidate text selection dispatches on the item type,
not on content presence: the pair for position `i` carries the field
`content` exactly when its type is `golden_answer`, and its `excerpt`
for every other type (messages and knowledge-base chunks alike). -/
theorem rerank_pair_selection (q : List Char) :
    ∀ (l : List FormattedItem) (pairs : List (List Char × List Char)),
      mkQueryPairs q l = .ok pairs →
      ∀ (i : Nat) (r : FormattedItem), l[i]? = some r →
        ∃ t, pairs[i]? = some (q, t) ∧
          ((r.type = "golden_answer" ∧ r.content = some t) ∨
           (¬r.type = "golden_answer" ∧ r.excerpt = some t)) := by
  intro l
  induction l with
  | nil =>
    intro pairs hp i r hr
    simp at hr
  | cons x xs ih =>
    intro pairs hp i r hr
    simp only [mkQueryPairs, exceptMap] at hp
    cases hc : candidateText x with
    | error e =>
      rw [hc] at hp
      simp [Except.map] at hp
    | ok y =>
      rw [hc] at hp
      cases hrest : exceptMap
          (fun r => (candidateText r).map (fun t => (q, t))) xs with
      | error e =>
        rw [hrest] at hp
        simp [Except.map] at hp
      | ok ys =>
        rw [hrest] at hp
        simp only [Except.map, Except.ok.injEq] at hp
        cases i with
        | zero =>
          have hxr : x = r := by simpa using hr
          subst hxr
          refine ⟨y, by simp [← hp], ?_⟩
          by_cases ht : x.type = "golden_answer"
          · refine Or.inl ⟨ht, ?_⟩
            unfold candidateText at hc
            rw [if_pos ht] at hc
            cases hx : x.content with
            | none =>
              rw [hx] at hc
              exact absurd hc (by simp)
            | some c =>
              rw [hx] at hc
              have : c = y := by simpa using hc
              rw [this]
          · refine Or.inr ⟨ht, ?_⟩
            unfold candidateText at hc
            rw [if_neg ht] at hc
            cases hx : x.excerpt with
            | none =>
              rw [hx] at hc
              exact absurd hc (by simp)
            | some c =>
              rw [hx] at hc
              have : c = y := by simpa using hc
              rw [this]
        | succ j =>
          obtain ⟨t, hti, hsel⟩ := ih ys hrest j r (by simpa using hr)
          exact ⟨t, by simp [← hp, hti], hsel⟩

/-- Witness for the amended C8 at the knowledge-base item of `itemsKb`. -/
theorem rerank_pair_selection_witness :
    ∃ t, ([("q".data, makeExcerpt longContent), ("q".data, "bbb".data),
           ("q".data, "ccc".data), ("q".data, "ddd".data)]
            : List (List Char × List Char))[0]? = some ("q".data, t) ∧
      ((kbItemLong.type = "golden_answer" ∧ kbItemLong.content = some t) ∨
       (¬kbItemLong.type = "golden_answer" ∧ kbItemLong.excerpt = some t)) :=
  rerank_pair_selection "q".data (itemsKb.take 20)
    [("q".data, makeExcerpt longContent), ("q".data, "bbb".data),
     ("q".data, "ccc".data), ("q".data, "ddd".data)]
    rfl 0 kbItemLong rfl

/-- C1 — All-or-nothing fan-out: if the executor of any configured source
fails, `search_all` returns an error — the error of a failing source —
and returns no row list at all (the `Except.error` result carries no
rows, so no partial results of the succeeding siblings survive); if
every executor succeeds, the result holds exactly the rows of every
source (a permutation of their concatenation, reordered only by the
fusion sort), each tagged with its source table. -/
theorem search_all_all_or_nothing
    (exec : SourceConfig → List ℚ → Int → Except String (List RawRow))
    (cs : List SourceConfig) (emb : List ℚ) (lim : Int) :
    ((∃ c ∈ cs, ∃ e, exec c emb lim = .error e) →
      ∃ e, search_all exec cs emb lim = .error e ∧ ∃ c ∈ cs, exec c emb lim = .error e)
  ∧ ((∀ c ∈ cs, ∃ rs, exec c emb lim = .ok rs) →
      ∃ rows, search_all exec cs emb lim = .ok rows ∧
        rows.Perm ((cs.map (taggedRows exec emb lim)).flatten) ∧
        ∀ r ∈ rows, ∃ c ∈ cs, r.source_table = c.table) := by
  constructor
  · intro hex
    obtain ⟨e, hg, hc⟩ := gather_first_error hex
    exact ⟨e, by simp [search_all, hg, Except.map], hc⟩
  · intro hall
    have hg := gather_all_ok hall
    refine ⟨fuseRows ((cs.map (taggedRows exec emb lim)).flatten),
      by simp [search_all, hg, Except.map], List.perm_insertionSort _ _, ?_⟩
    intro r hr
    have hr1 : r ∈ (cs.map (taggedRows exec emb lim)).flatten :=
      (List.perm_insertionSort fuseLE _).subset hr
    obtain ⟨L, hL, hrL⟩ := List.mem_flatten.mp hr1
    obtain ⟨c, hc, rfl⟩ := List.mem_map.mp hL
    refine ⟨c, hc, ?_⟩
    unfold taggedRows at hrL
    cases hce : exec c emb lim with
    | error e =>
      rw [hce] at hrL
      simp at hrL
    | ok rs =>
      rw [hce] at hrL
      unfold tagRows at hrL
      obtain ⟨r0, _, rfl⟩ := List.mem_map.mp hrL
      rfl

/-- Witness for C1: one failing source aborts the fan-out; an all-ok
fan-out returns every tagged row. -/
theorem search_all_all_or_nothing_witness :
    (∃ e, search_all execOneFail [cfgM, cfgG] [1] 10 = .error e ∧
      ∃ c ∈ [cfgM, cfgG], execOneFail c [1] 10 = .error e)
  ∧ ∃ rows, search_all execTwoRows [cfgM] [1] 10 = .ok rows ∧
      rows.Perm (([cfgM].map (taggedRows execTwoRows [1] 10)).flatten) ∧
      ∀ r ∈ rows, ∃ c ∈ [cfgM], r.source_table = c.table :=
  ⟨(search_all_all_or_nothing execOneFail [cfgM, cfgG] [1] 10).1
      ⟨cfgG, by decide, "boom", rfl⟩,
    (search_all_all_or_nothing execTwoRows [cfgM] [1] 10).2
      (fun c _ => ⟨_, rfl⟩)⟩

/-- C3 — Capability-gate short circuit and caching: on a validated
request whose gate value is `false`, the endpoint returns the distinct
503 "unavailable" outcome (not a generic failure) and the result is
independent of the executor and reranker oracles — no source executor
runs; the probe outcome is cached on first call and every later call
returns the cached boolean unchanged, for any probe outcome (no
re-probing). -/
theorem capability_gate_short_circuit (probe : Bool)
    (exec : SourceConfig → List ℚ → Int → Except String (List RawRow))
    (loadOutcome : Bool)
    (co : List (List Char × List Char) → Except Unit (List ℚ))
    (dbSt : DbState) (rkSt : RerankState) (req : SearchRequest) :
    ((check_hybrid_search_available probe dbSt).1 = false →
      req.query.all Char.isWhitespace = false →
      req.embedding.isEmpty = false →
      req.search_configs.isEmpty = false →
      (searchEndpoint probe exec loadOutcome co dbSt rkSt req).1 = .unavailable
      ∧ ∀ exec' loadOutcome' co',
          searchEndpoint probe exec' loadOutcome' co' dbSt rkSt req =
            searchEndpoint probe exec loadOutcome co dbSt rkSt req)
  ∧ (∀ v, dbSt.is_hybrid_search_available = some v →
      check_hybrid_search_available probe dbSt = (v, dbSt))
  ∧ (dbSt.is_hybrid_search_available = none →
      check_hybrid_search_available probe dbSt =
        (probe, { is_hybrid_search_available := some probe })) := by
  refine ⟨?_, ?_, ?_⟩
  · intro hg hq he hc
    have key : ∀ (ex : SourceConfig → List ℚ → Int → Except String (List RawRow))
        (lo : Bool) (c : List (List Char × List Char) → Except Unit (List ℚ)),
        searchEndpoint probe ex lo c dbSt rkSt req =
          (.unavailable, (check_hybrid_search_available probe dbSt).2, rkSt) := by
      intro ex lo c
      unfold searchEndpoint
      rw [if_neg (by simp [hq]), if_neg (by simp [he]), if_neg (by simp [hc])]
      dsimp only
      rw [if_pos hg]
    exact ⟨by rw [key exec loadOutcome co],
      fun exec' loadOutcome' co' => by rw [key exec' loadOutcome' co', key exec loadOutcome co]⟩
  · intro v hv
    unfold check_hybrid_search_available
    rw [hv]
  · intro hn
    unfold check_hybrid_search_available
    rw [hn]

/-- Witness for C3: gate `false` yields 503 for every oracle; a cached
`false` is returned unchanged by a later call whose probe would say
`true`. -/
theorem capability_gate_short_circuit_witness :
    ((searchEndpoint false execEmpty true coFixed ⟨none⟩ ⟨false, false⟩ reqNoRerank).1 =
        .unavailable
      ∧ ∀ exec' loadOutcome' co',
          searchEndpoint false exec' loadOutcome' co' ⟨none⟩ ⟨false, false⟩ reqNoRerank =
            searchEndpoint false execEmpty true coFixed ⟨none⟩ ⟨false, false⟩ reqNoRerank)
  ∧ check_hybrid_search_available true ⟨some false⟩ = (false, ⟨some false⟩) :=
  ⟨(capability_gate_short_circuit false execEmpty true coFixed ⟨none⟩ ⟨false, false⟩
      reqNoRerank).1 rfl (by decide) rfl rfl,
    (capability_gate_short_circuit true execEmpty true coFixed ⟨some false⟩ ⟨false, false⟩
      reqNoRerank).2.1 false rfl⟩


/-- C9 counterexample — a request whose `limit` is 0 (hence not > 0) is
not rejected with a validation error: it passes all three validation
checks and the gate and proceeds into the pipeline, where it fails with
the missing-await TypeError (a 500), not with any 400 validation
rejection — refuting "rejects with a validation error ... any request
whose limit is not greater than 0". -/
theorem limit_not_validated_cex :
    (searchEndpoint true execEmpty true coFixed ⟨none⟩ ⟨false, false⟩ reqLimit0).1 =
      .serverError "TypeError: coroutine object is not iterable" :=
  rfl

/-- C9 (amended) — request validation as coded: a query that is empty or
whitespace-only, an empty embedding, or an empty source list is
rejected with the corresponding 400 validation error before any source
query (indeed the endpoint outcome is independent of the executor and
reranker oracles — with the missing await, no oracle is ever
consulted); any other request — including one with `limit ≤ 0`, which
the code never validates — passes validation and is never rejected
with a 400 (it then fails with the missing-await TypeError, not a
validation error). -/
theorem request_validation (probe : Bool)
    (exec : SourceConfig → List ℚ → Int → Except String (List RawRow))
    (loadOutcome : Bool)
    (co : List (List Char × List Char) → Except Unit (List ℚ))
    (dbSt : DbState) (rkSt : RerankState) (req : SearchRequest) :
    (req.query.all Char.isWhitespace = true →
      (searchEndpoint probe exec loadOutcome co dbSt rkSt req).1 =
        .badRequest "Query cannot be empty")
  ∧ (req.query.all Char.isWhitespace = false → req.embedding.isEmpty = true →
      (searchEndpoint probe exec loadOutcome co dbSt rkSt req).1 =
        .badRequest "Embedding cannot be empty")
  ∧ (req.query.all Char.isWhitespace = false → req.embedding.isEmpty = false →
      req.search_configs.isEmpty = true →
      (searchEndpoint probe exec loadOutcome co dbSt rkSt req).1 =
        .badRequest "At least one search config required")
  ∧ (∀ exec' loadOutcome' co',
      searchEndpoint probe exec' loadOutcome' co' dbSt rkSt req =
        searchEndpoint probe exec loadOutcome co dbSt rkSt req)
  ∧ (req.query.all Char.isWhitespace = false → req.embedding.isEmpty = false →
      req.search_configs.isEmpty = false →
      ∀ d, (searchEndpoint probe exec loadOutcome co dbSt rkSt req).1 ≠ .badRequest d) := by
  refine ⟨?_, ?_, ?_, ?_, ?_⟩
  · intro h1
    unfold searchEndpoint
    rw [if_pos h1]
  · intro h1 h2
    unfold searchEndpoint
    rw [if_neg (by simp [h1]), if_pos h2]
  · intro h1 h2 h3
    unfold searchEndpoint
    rw [if_neg (by simp [h1]), if_neg (by simp [h2]), if_pos h3]
  · intro exec' loadOutcome' co'
    rfl
  · intro h1 h2 h3 d
    unfold searchEndpoint
    rw [if_neg (by simp [h1]), if_neg (by simp [h2]), if_neg (by simp [h3])]
    dsimp only
    split_ifs with hg
    · simp
    · simp

/-- Witness for the amended C9: each malformed request is rejected with
its 400 message; the limit = 0 request is never rejected. -/
theorem request_validation_witness :
    (searchEndpoint true execEmpty true coFixed ⟨none⟩ ⟨false, false⟩ reqBlank).1 =
      .badRequest "Query cannot be empty"
  ∧ (searchEndpoint true execEmpty true coFixed ⟨none⟩ ⟨false, false⟩ reqNoEmb).1 =
      .badRequest "Embedding cannot be empty"
  ∧ (searchEndpoint true execEmpty true coFixed ⟨none⟩ ⟨false, false⟩ reqNoCfg).1 =
      .badRequest "At least one search config required"
  ∧ ∀ d, (searchEndpoint true execEmpty true coFixed ⟨none⟩ ⟨false, false⟩ reqLimit0).1 ≠
      .badRequest d :=
  ⟨(request_validation true execEmpty true coFixed ⟨none⟩ ⟨false, false⟩ reqBlank).1
      (by decide),
    (request_validation true execEmpty true coFixed ⟨none⟩ ⟨false, false⟩ reqNoEmb).2.1
      (by decide) rfl,
    (request_validation true execEmpty true coFixed ⟨none⟩ ⟨false, false⟩ reqNoCfg).2.2.1
      (by decide) rfl rfl,
    (request_validation true execEmpty true coFixed ⟨none⟩ ⟨false, false⟩ reqLimit0).2.2.2.2
      (by decide) rfl rfl⟩

/-- Rows kept by the formatter carry the sort key of their row as score, so a
fused (descending) row list formats to a descending item list. -/
theorem pairwise_score_filterMap {l : List RawRow} (h : List.Pairwise fuseLE l) :
    List.Pairwise (fun a b : FormattedItem => b.score ≤ a.score) (l.filterMap formatRow) := by
  rw [List.pairwise_filterMap]
  refine h.imp ?_
  intro a b hab x hx y hy
  rw [formatRow_score hx, formatRow_score hy]
  exact hab

/-- Inserting an element with the key under scrutiny places it in front
of every equal-key element already present. -/
theorem filter_orderedInsert_key (x : RawRow) (s : ℚ) (hx : sortKey x = s) :
    ∀ l : List RawRow,
      (l.orderedInsert fuseLE x).filter (fun r => sortKey r = s) =
        x :: l.filter (fun r => sortKey r = s) := by
  intro l
  induction l with
  | nil => simp [List.orderedInsert, hx]
  | cons y ys ih =>
    by_cases hxy : fuseLE x y
    · rw [List.orderedInsert_of_le fuseLE _ hxy]
      rw [List.filter_cons_of_pos (by simp [hx])]
    · have hys : ¬sortKey y = s := by
        intro hy
        exact hxy (by rw [fuseLE, hy, hx])
      simp only [List.orderedInsert, if_neg hxy]
      rw [List.filter_cons_of_neg (by simp [hys]), ih,
        List.filter_cons_of_neg (by simp [hys])]

/-- Inserting an element with a different key leaves the filtered
subsequence untouched. -/
theorem filter_orderedInsert_not (x : RawRow) (p : RawRow → Bool) (hx : p x = false) :
    ∀ l : List RawRow, (l.orderedInsert fuseLE x).filter p = l.filter p := by
  intro l
  induction l with
  | nil => simp [List.orderedInsert, hx]
  | cons y ys ih =>
    by_cases hxy : fuseLE x y
    · rw [List.orderedInsert_of_le fuseLE _ hxy]
      rw [List.filter_cons_of_neg (by simp [hx])]
    · simp only [List.orderedInsert, if_neg hxy]
      by_cases hy : p y
      · rw [List.filter_cons_of_pos hy, List.filter_cons_of_pos hy, ih]
      · rw [List.filter_cons_of_neg hy, List.filter_cons_of_neg hy, ih]

/-- Stability of the fusion sort: for every score value, the rows
holding that sort key appear in the fused list exactly in their input
order. -/
theorem filter_fuseRows_key (s : ℚ) :
    ∀ l : List RawRow,
      (fuseRows l).filter (fun r => sortKey r = s) =
        l.filter (fun r => sortKey r = s) := by
  intro l
  induction l with
  | nil => rfl
  | cons x xs ih =>
    show ((fuseRows xs).orderedInsert fuseLE x).filter _ = _
    by_cases hx : sortKey x = s
    · rw [filter_orderedInsert_key x s hx, ih,
        List.filter_cons_of_pos (by simp [hx])]
    · rw [filter_orderedInsert_not x _ (by simp [hx]), ih,
        List.filter_cons_of_neg (by simp [hx])]

/-- The non-rerank response list is sorted by descending score. -/
theorem sorted_after_format (rows : List RawRow) (lim : Int) :
    List.Pairwise (fun a b : FormattedItem => b.score ≤ a.score)
      (pyTake lim (format_search_results (fuseRows rows))) := by
  have h1 : List.Pairwise fuseLE (fuseRows rows) :=
    List.sorted_insertionSort fuseLE rows
  exact List.Pairwise.sublist (List.take_sublist _ _) (pairwise_score_filterMap h1)

/-- C4 — code bug (missing await): the claim is right about the fusion
stage the spec describes — any successful `search_all` result,
formatted and truncated exactly as endpoint lines 95-99 would, is
descending in score at every adjacent pair, and the fusion sort is
stable (filtering the fused list to any one sort key returns exactly
the rows of the input with that key, in input order) — but the
endpoint can never return such a list: line 76 of
`endpoints/search.py` does not await the async `search_all`, so every
validated gate-true request raises TypeError and is answered 500,
shown here on a concrete non-rerank request. -/
theorem fused_order_sorted_and_stable :
    (searchEndpoint true execTwoRows false coFixed ⟨none⟩ ⟨false, false⟩ reqNoRerank).1 =
      .serverError "TypeError: coroutine object is not iterable"
  ∧ (∀ (exec : SourceConfig → List ℚ → Int → Except String (List RawRow))
      (cs : List SourceConfig) (emb : List ℚ) (lim limit : Int)
      (rows : List RawRow),
      search_all exec cs emb lim = .ok rows →
      ∀ (i : Nat) (hi : i + 1 < (pyTake limit (format_search_results rows)).length),
        ((pyTake limit (format_search_results rows)).get ⟨i + 1, hi⟩).score ≤
          ((pyTake limit (format_search_results rows)).get
            ⟨i, Nat.lt_of_succ_lt hi⟩).score)
  ∧ ∀ (l : List RawRow) (s : ℚ),
      (fuseRows l).filter (fun r => sortKey r = s) =
        l.filter (fun r => sortKey r = s) := by
  refine ⟨rfl, ?_, fun l s => filter_fuseRows_key s l⟩
  intro exec cs emb lim limit rows hs
  have hraw : ∃ nested : List (List RawRow), rows = fuseRows nested.flatten := by
    unfold search_all at hs
    cases hgat : gatherSources exec emb lim cs with
    | error e =>
      rw [hgat] at hs
      simp [Except.map] at hs
    | ok nested =>
      rw [hgat] at hs
      simp [Except.map] at hs
      exact ⟨nested, hs.symm⟩
  obtain ⟨nested, rfl⟩ := hraw
  have hp := sorted_after_format nested.flatten limit
  rw [List.pairwise_iff_get] at hp
  intro i hi
  exact hp ⟨i, Nat.lt_of_succ_lt hi⟩ ⟨i + 1, hi⟩ (by simp)

/-- Witness for C4: the fusion property at the concrete two-row
fan-out, plus one stability instance. -/
theorem fused_order_sorted_and_stable_witness :
    (∀ (i : Nat) (hi : i + 1 < (pyTake 10 (format_search_results fusedTwoRows)).length),
      ((pyTake 10 (format_search_results fusedTwoRows)).get ⟨i + 1, hi⟩).score ≤
        ((pyTake 10 (format_search_results fusedTwoRows)).get
          ⟨i, Nat.lt_of_succ_lt hi⟩).score)
  ∧ (fuseRows [kbRowLong]).filter (fun r => sortKey r = mkRat 9 10) =
      [kbRowLong].filter (fun r => sortKey r = mkRat 9 10) :=
  ⟨fused_order_sorted_and_stable.2.1 execTwoRows [cfgM] [1] 10 10 fusedTwoRows rfl,
    fused_order_sorted_and_stable.2.2 [kbRowLong] (mkRat 9 10)⟩

/-- Witness for C10 at the first output item of a four-item rescoring
call: erasing the `rerank_score` the copy received recovers an input
item. -/
theorem rerank_no_input_mutation_witness :
    (setRerankScore (msgItem (mkRat 9 10) "aaa".data "m1") (mkRat 1 2)).rerank_score
        = some (mkRat 1 2)
    ∧ { setRerankScore (msgItem (mkRat 9 10) "aaa".data "m1") (mkRat 1 2) with
          rerank_score := none } ∈ items4 :=
  ⟨rfl,
    (rerank_no_input_mutation true coFail "q".data items4 20 ⟨false, false⟩ (by decide)
        (setRerankScore (msgItem (mkRat 9 10) "aaa".data "m1") (mkRat 1 2))
        (by decide)).2 (mkRat 1 2) rfl⟩
